import Mathlib

/-!
Verification development for the GenetiGo repository: a genetic-algorithm
engine (package ga), a batching helper (package batching), and a NEAT-style
neuroevolution genome model (package neat).

Modelling conventions, applied uniformly:

* Machine integers (uint32, uint64) are modelled as Nat; whenever the source
  performs wrapping arithmetic that can influence observable behaviour, the
  model takes the result modulo 2^32 (U32) or 2^64 (U64) exactly where the
  source's machine arithmetic wraps.
* float32/float64 values (weights, survival chances, distances) are modelled
  as rationals.  All concrete values exercised by the theorems below are
  exact dyadic numbers, where binary floating point and rational arithmetic
  agree; the float64 transcendental activation functions (tanh, sigmoid) are
  abstracted by an ActivationSemantics parameter.
* Randomness is made explicit: every call of the source to a random number
  generator becomes an explicit argument (an index pick, a coin stream, a
  drawn weight).  rand.IntN(n) is modelled by taking the supplied pick
  modulo n, matching the guarantee that the result lies in [0, n).
* Go panics (invalid configuration, division by zero, data mismatch) are
  modelled with Except/Option failure values.
* Go maps are modelled as Option of an association list: none is the nil
  map.  Reading an entry of a nil map misses, and len and range over it
  behave as over an empty map, but assigning to an entry of a nil map
  panics at runtime.  The source declares the package-level map
  mutationHistory without ever initialising it with make, so it is nil for
  the whole process; the structural-mutation operations that write to it
  therefore return Option results, with none modelling the Go panic.
-/

/-! ## Package batching (src/unnamed/part_001) -/

/-- Start and end indices of a batch; the interval is half-open, Start
inclusive and End exclusive.  Mirrors batching.BatchInfo. -/
structure BatchInfo where
  Start : Nat
  End : Nat
deriving DecidableEq, Inhabited

/-- The loop body of BuildBatchesList: iterates nBatches times, clamping the
end index to nElements and stepping start/end by batchSize, exactly as the
for-range loop of the source.  The possibly overflowing final update
end += batchSize of the source is never read (the loop exits), so plain Nat
arithmetic is faithful here. -/
def buildLoop (nElements batchSize : Nat) : Nat → Nat → Nat → List BatchInfo
  | 0, _, _ => []
  | k + 1, start, e =>
    let e2 := if e > nElements then nElements else e
    ⟨start, e2⟩ :: buildLoop nElements batchSize k e2 (e2 + batchSize)

/-- batching.BuildBatchesList.  Splits nElements into nBatches contiguous
half-open ranges; the last range is patched to end at nElements.  The source
divides by nBatches (a Go panic when nBatches = 0; the claim below only
quantifies over nBatches ≥ 1). -/
def BuildBatchesList (nElements nBatches : Nat) : List BatchInfo :=
  if nElements = 0 then []
  else
    let batchSize := nElements / nBatches
    let batches := buildLoop nElements batchSize nBatches 0 batchSize
    if (batches.getD (nBatches - 1) default).End ≠ nElements then
      batches.set (nBatches - 1) ⟨(batches.getD (nBatches - 1) default).Start, nElements⟩
    else batches

/-! ## Package ga (src/ga/ga.go) -/

/-- 2^32, the modulus of Go uint32 arithmetic. -/
def U32 : Nat := 4294967296

/-- 2^64, the modulus of Go uint64 arithmetic. -/
def U64 : Nat := 18446744073709551616

/-- The ga.Member interface: the operations the engine requires of a genome.
Fitness scores are uint32 (Nat), survival chances float32 (ℚ).  The engine
never inspects a member beyond these operations. -/
structure MemberOps (M : Type) where
  getFitnessScore : M → Nat
  getSurvivalChance : M → ℚ
  setSurvivalChance : M → ℚ → M
  computeFitness : M → M

/-- ga.SolverOptions. -/
structure SolverOptions where
  PopulationSize : Nat
  MaxGenerations : Nat
  MutationChance : ℚ
  NBatches : Nat
  Speciation : Bool
  Verbose : Bool
deriving DecidableEq

/-- ga.Solver: current population, options, and the 1-indexed uint32
generation counter. -/
structure Solver (M : Type) where
  population : List M
  options : SolverOptions
  generationNo : Nat

/-- ga.NewSolver.  Panics (modelled as Except.error) when the configured
population size is zero or when the uint32-truncated length of the supplied
member list differs from it; otherwise clamps NBatches into
[1, PopulationSize] and returns the solver with generation counter 1.
The source compares uint32(len(members)) with options.PopulationSize, hence
the explicit % U32 on the length. -/
def NewSolver {M : Type} (members : List M) (options : SolverOptions) :
    Except String (Solver M) :=
  if options.PopulationSize = 0 then
    Except.error "population size must be greater than zero"
  else if members.length % U32 ≠ options.PopulationSize then
    Except.error "initial popultation does not match population size"
  else
    let opts1 := if options.NBatches = 0 then { options with NBatches := 1 } else options
    let opts2 :=
      if opts1.NBatches > opts1.PopulationSize then
        { opts1 with NBatches := opts1.PopulationSize }
      else opts1
    Except.ok { population := members, options := opts2, generationNo := 1 }

/-- slices.MaxFunc of the Go standard library, as used by getBestMember:
starts from the head and replaces the running maximum only when the
comparator is strictly positive, so ties keep the earlier element.  The
source panics on an empty slice; modelled as none. -/
def MaxFunc {M : Type} (cmp : M → M → Int) : List M → Option M
  | [] => none
  | x :: xs => some (xs.foldl (fun m y => if 0 < cmp y m then y else m) x)

/-- Solver.getBestMember: slices.MaxFunc with the comparator
int(a.GetFitnessScore()) - int(b.GetFitnessScore()) (Go int is 64-bit, so
the subtraction of two uint32 values is exact in Int). -/
def getBestMember {M : Type} (ops : MemberOps M) (population : List M) : Option M :=
  MaxFunc (fun a b => (ops.getFitnessScore a : Int) - (ops.getFitnessScore b : Int)) population

/-- The serial survival-chance assignment phase of Solver.Solve (ga.go lines
185-194): each member gets fitness/fitnessSum when the accumulated sum is
non-zero, else 1/PopulationSize.  The float32 conversions and division are
modelled exactly over ℚ. -/
def assignSurvival {M : Type} (ops : MemberOps M) (populationSize fitnessSum : Nat)
    (pop : List M) : List M :=
  pop.map (fun m =>
    ops.setSurvivalChance m
      (if fitnessSum ≠ 0 then (ops.getFitnessScore m : ℚ) / (fitnessSum : ℚ)
       else 1 / (populationSize : ℚ)))

/-- The member-supplied and randomness-dependent parts of one generation,
abstracted: distUpd i pop is the value of slot i after the speciation
distance phase (Distance is a member method with member-local side effects);
breedUpd gen i pop is the child written into slot i of the freshly allocated
next-population buffer by the breeding phase (two weighted random parent
picks, Crossover, optional Mutate).  Both phases write each slot exactly
once, which the range-map form captures; the engine's own structure (loop,
counter, fitness accumulation, survival assignment, best-member selection)
is modelled concretely in solveLoop. -/
structure EngineOracle (M : Type) where
  ops : MemberOps M
  distUpd : Nat → List M → M
  breedUpd : Nat → Nat → List M → M

/-- Distance (in uint32 arithmetic) from the current generation counter to
the terminating one; the well-founded measure of the Solve loop. -/
def gensLeft (maxGen genNo : Nat) : Nat :=
  (maxGen % U32 + U32 - genNo % U32) % U32

/-- Solver.Solve's generation loop.  Returns (result, number of loop
iterations executed, final-generation population after its fitness phase).
Each iteration: optional speciation distance phase, fitness phase (with the
uint32 atomic fitness-sum accumulation), return of the best member when the
uint32 generation counter equals MaxGenerations, otherwise survival-chance
assignment, breeding into a fresh buffer of length PopulationSize, and a
wrapping uint32 counter increment.  Both counters are uint32, hence the
% U32 on the equality test and on the increment. -/
def solveLoop {M : Type} (o : EngineOracle M) (opts : SolverOptions) :
    Nat → List M → Option M × Nat × List M
  | genNo, pop =>
    let pop1 :=
      if opts.Speciation then (List.range pop.length).map (fun i => o.distUpd i pop) else pop
    let pop2 := pop1.map o.ops.computeFitness
    if genNo % U32 = opts.MaxGenerations % U32 then
      (getBestMember o.ops pop2, 1, pop2)
    else
      let fitnessSum := ((pop2.map o.ops.getFitnessScore).sum) % U32
      let pop3 := assignSurvival o.ops opts.PopulationSize fitnessSum pop2
      let next := (List.range opts.PopulationSize).map (fun i => o.breedUpd genNo i pop3)
      let r := solveLoop o opts ((genNo + 1) % U32) next
      (r.1, r.2.1 + 1, r.2.2)
  termination_by genNo _ => gensLeft opts.MaxGenerations genNo
  decreasing_by simp only [gensLeft, U32] at *; omega

/-- Solver.Solve: runs the generation loop from the solver's current
generation counter and population. -/
def Solve {M : Type} (o : EngineOracle M) (s : Solver M) : Option M × Nat × List M :=
  solveLoop o s.options s.generationNo s.population

/-- A minimal concrete Member implementation (fitness score plus survival
chance, as in ga.MemberData), used to instantiate the generic engine
theorems at concrete inputs. -/
structure SimpleMember where
  fitness : Nat
  chance : ℚ
deriving DecidableEq

/-- MemberOps for SimpleMember: fitness is stored as-is and computeFitness
keeps it unchanged. -/
def simpleOps : MemberOps SimpleMember where
  getFitnessScore := fun m => m.fitness
  getSurvivalChance := fun m => m.chance
  setSurvivalChance := fun m c => { m with chance := c }
  computeFitness := fun m => m

/-- A trivial engine oracle over SimpleMember for concrete instantiations. -/
def simpleOracle : EngineOracle SimpleMember where
  ops := simpleOps
  distUpd := fun _ _ => ⟨0, 0⟩
  breedUpd := fun _ _ _ => ⟨0, 0⟩

/-! ## Package neat (src/neat/neat.go) with internal/activation -/

/-- The closed set of activation functions (internal/activation). -/
inductive ActivationFunction where
  | identity
  | tanh
  | sigmoid
deriving DecidableEq, Inhabited

/-- Semantics of the float64 transcendental activation functions.  Identity
is exact; tanh and sigmoid are abstract rational-valued parameters, since
none of the verified claims depends on their numeric values. -/
structure ActivationSemantics where
  tanhFn : ℚ → ℚ
  sigmoidFn : ℚ → ℚ

/-- ActivationFunction.Compute (internal/activation Compute methods). -/
def ActivationFunction.Compute (sem : ActivationSemantics) : ActivationFunction → ℚ → ℚ
  | .identity, x => x
  | .tanh, x => sem.tanhFn x
  | .sigmoid, x => sem.sigmoidFn x

/-- neat.node: identifier, layer, activation.  Throughout the package a
node's id equals its index in the node list. -/
structure node where
  id : Nat
  layer : Nat
  activation : ActivationFunction
deriving DecidableEq, Inhabited

/-- neat.connectionNodes: the (sender, receiver) node-id pair. -/
structure connectionNodes where
  senderId : Nat
  receiverId : Nat
deriving DecidableEq, Inhabited

/-- neat.connection. -/
structure connection where
  endpoints : connectionNodes
  weight : ℚ
  enabled : Bool
  innovationNo : Nat
deriving DecidableEq, Inhabited

/-- The mutationType constant addNode (iota value 0). -/
def addNodeType : Nat := 0

/-- The mutationType constant addConn (iota value 1). -/
def addConnType : Nat := 1

/-- neat.mutation: the record stored in the mutation history. -/
structure mutation where
  typeId : Nat
  conn : connection
deriving DecidableEq, Inhabited

/-- The package-level mutable state of neat: the uint64 innovation counter
and the mutation-history map.  A Go map value is either nil or an
initialised map: none models nil, some an initialised map held as an
association list in which lookup returns the most recent binding.  The
source's var declaration leaves mutationHistory nil and the package never
calls make, so every state the program can reach has mutationHistory =
none. -/
structure GlobalState where
  innovationNoTracker : Nat
  mutationHistory : Option (List (connectionNodes × mutation))
deriving DecidableEq

/-- The zero value of the package-level state: counter 0, nil map. -/
def initialGlobalState : GlobalState := ⟨0, none⟩

/-- Association-list lookup (most recent binding wins). -/
def lookupHistoryList : List (connectionNodes × mutation) → connectionNodes → Option mutation
  | [], _ => none
  | (k, m) :: t, key => if k = key then some m else lookupHistoryList t key

/-- Map read: reading an entry of a nil map misses, exactly as in Go. -/
def historyLookup :
    Option (List (connectionNodes × mutation)) → connectionNodes → Option mutation
  | none, _ => none
  | some h, key => lookupHistoryList h key

/-- Map assignment: the new binding shadows any older one; assigning to an
entry of a nil map is a Go runtime panic, modelled as none. -/
def historyInsert :
    Option (List (connectionNodes × mutation)) → connectionNodes → mutation →
      Option (List (connectionNodes × mutation))
  | none, _, _ => none
  | some h, key, m => some ((key, m) :: h)

/-- Go len() of a possibly nil map. -/
def historyLength : Option (List (connectionNodes × mutation)) → Nat
  | none => 0
  | some h => h.length

/-- neat.clearMutationHistory: ranges over the map deleting every key.
Ranging over a nil map is a no-op, so nil stays nil; an initialised map
becomes empty. -/
def clearMutationHistory : Option (List (connectionNodes × mutation)) →
    Option (List (connectionNodes × mutation))
  | none => none
  | some _ => some []

/-- neat.getNewInnovationNumber: increments the uint64 tracker and returns
its previous value, both in mod-2^64 arithmetic exactly as Go computes
(tracker++; return tracker - 1). -/
def getNewInnovationNumber (gs : GlobalState) : Nat × GlobalState :=
  let t := (gs.innovationNoTracker + 1) % U64
  ((t + U64 - 1) % U64, { gs with innovationNoTracker := t })

/-- neat.maxDepth. -/
def maxDepth : Nat := 20

/-- neat.Network.  FitnessScore is uint32, SurvivalChance float32 (ℚ). -/
structure Network where
  FitnessScore : Nat
  SurvivalChance : ℚ
  nodes : List node
  connections : List connection
  nInputs : Nat
  nOutputs : Nat
  nSimilar : Nat
  sorted : Bool
deriving DecidableEq

/-- neat.NewNetwork: input nodes with ids 0..nInputs-1 at layer 0 with
identity activation, then output nodes with ids nInputs..nInputs+nOutputs-1
at layer maxDepth with sigmoid activation; no connections. -/
def NewNetwork (nInputs nOutputs : Nat) : Network where
  FitnessScore := 0
  SurvivalChance := 0
  nodes :=
    (List.range nInputs).map (fun i => ⟨i, 0, ActivationFunction.identity⟩) ++
    (List.range nOutputs).map (fun i => ⟨i + nInputs, maxDepth, ActivationFunction.sigmoid⟩)
  connections := []
  nInputs := nInputs
  nOutputs := nOutputs
  nSimilar := 0
  sorted := false

/-- Network.addConnection.  The two rand.IntN(len(nodes)) picks are supplied
as arguments and reduced modulo the node count; the random weight is the
argument w.  Rejections (self-loop, non-forward edge, duplicate edge) are
no-ops.  A history record of addConn kind for the same endpoints is copied;
otherwise a fresh connection is created with a new innovation number and
recorded in the history — and since mutationHistory is never initialised in
the source, that recording assignment (neat.go:137) panics on the nil map,
modelled by the none result; the rand.IntN(0) panic on a network with no
nodes is also none. -/
def addConnection (net : Network) (gs : GlobalState) (senderPick receiverPick : Nat)
    (w : ℚ) : Option (Network × GlobalState) :=
  if net.nodes.length = 0 then none
  else
    let senderNodeId := senderPick % net.nodes.length
    let receiverNodeId := receiverPick % net.nodes.length
    let newEndpoints : connectionNodes := ⟨senderNodeId, receiverNodeId⟩
    if senderNodeId = receiverNodeId ∨
        (net.nodes.getD senderNodeId default).layer ≥
          (net.nodes.getD receiverNodeId default).layer then
      some (net, gs)
    else if net.connections.any (fun c => c.endpoints = newEndpoints) then
      some (net, gs)
    else
      let create : Option (Network × GlobalState) :=
        let alloc := getNewInnovationNumber gs
        let newConnection : connection := ⟨newEndpoints, w, true, alloc.1⟩
        match historyInsert alloc.2.mutationHistory newEndpoints ⟨addConnType, newConnection⟩ with
        | none => none
        | some h2 =>
          some ({ net with connections := net.connections ++ [newConnection] },
            { alloc.2 with mutationHistory := some h2 })
      match historyLookup gs.mutationHistory newEndpoints with
      | some recm =>
        if recm.typeId = addConnType then
          some ({ net with connections := net.connections ++ [recm.conn] }, gs)
        else create
      | none => create

/-- Network.addNode.  The rand.IntN(len(connections)) pick is the argument
connPick reduced modulo the connection count; rand.IntN(0) on a network
without connections panics (none).  Disabled connections and splits that
would reach maxDepth are no-ops.  The new node goes one layer after the
split connection's sender; the two new connections are copied from the
history when both endpoint keys carry addNode records, else freshly created
and recorded — and since mutationHistory is never initialised in the
source, the first of those two recording assignments (neat.go:180-181)
panics on the nil map, modelled by the none result. -/
def addNode (net : Network) (gs : GlobalState) (connPick : Nat) (w1 w2 : ℚ) :
    Option (Network × GlobalState) :=
  if net.connections.length = 0 then none
  else
    let connIndex := connPick % net.connections.length
    let connRef := net.connections.getD connIndex default
    if connRef.enabled = false then some (net, gs)
    else
      let newLayer := (net.nodes.getD connRef.endpoints.senderId default).layer + 1
      if newLayer ≥ maxDepth then some (net, gs)
      else
        let newNode : node := ⟨net.nodes.length, newLayer, ActivationFunction.tanh⟩
        let newEndpoints1 : connectionNodes := ⟨connRef.endpoints.senderId, newNode.id⟩
        let newEndpoints2 : connectionNodes := ⟨newNode.id, connRef.endpoints.receiverId⟩
        let net1 := { net with nodes := net.nodes ++ [newNode] }
        let create : Option (Network × GlobalState) :=
          let alloc1 := getNewInnovationNumber gs
          let alloc2 := getNewInnovationNumber alloc1.2
          let newConnection1 : connection := ⟨newEndpoints1, w1, true, alloc1.1⟩
          let newConnection2 : connection := ⟨newEndpoints2, w2, true, alloc2.1⟩
          match historyInsert alloc2.2.mutationHistory newEndpoints1
              ⟨addNodeType, newConnection1⟩ with
          | none => none
          | some h1 =>
            match historyInsert (some h1) newEndpoints2 ⟨addNodeType, newConnection2⟩ with
            | none => none
            | some h2 =>
              some ({ net1 with
                connections := net1.connections ++ [newConnection1, newConnection2] },
                { alloc2.2 with mutationHistory := some h2 })
        match historyLookup gs.mutationHistory newEndpoints1,
              historyLookup gs.mutationHistory newEndpoints2 with
        | some recm1, some recm2 =>
          if recm1.typeId = addNodeType ∧ recm2.typeId = addNodeType then
            some ({ net1 with connections := net1.connections ++ [recm1.conn, recm2.conn] }, gs)
          else create
        | some _, none => create
        | none, some _ => create
        | none, none => create

/-- Network.mutateWeights: each connection independently keeps or replaces
its weight; coins i is the draw rand.Float32() < 0.10 for index i and ws i
the replacement weight. -/
def mutateWeights (net : Network) (coins : Nat → Bool) (ws : Nat → ℚ) : Network :=
  { net with
    connections :=
      (List.range net.connections.length).map (fun i =>
        let c := net.connections.getD i default
        if coins i then { c with weight := ws i } else c) }

/-- One structural or weight mutation together with its random draws, i.e.
one invocation of addConnection, addNode or mutateWeights. -/
inductive MutationOp where
  | addConnectionOp (senderPick receiverPick : Nat) (w : ℚ)
  | addNodeOp (connPick : Nat) (w1 w2 : ℚ)
  | mutateWeightsOp (coins : Nat → Bool) (ws : Nat → ℚ)

/-- Applies one mutation to a network and the package state; none is a Go
panic aborting the run. -/
def applyOp (st : Network × GlobalState) (op : MutationOp) : Option (Network × GlobalState) :=
  match op with
  | .addConnectionOp s r w => addConnection st.1 st.2 s r w
  | .addNodeOp c w1 w2 => addNode st.1 st.2 c w1 w2
  | .mutateWeightsOp coins ws => some (mutateWeights st.1 coins ws, st.2)

/-- Applies a sequence of mutations in order, a panic aborting the rest. -/
def applyOps (net : Network) (gs : GlobalState) :
    List MutationOp → Option (Network × GlobalState)
  | [] => some (net, gs)
  | op :: t =>
    match applyOp (net, gs) op with
    | none => none
    | some st => applyOps st.1 st.2 t

/-- Sorting a connection list by innovation number, as both Distance and
Crossover do in place via slices.SortFunc with the comparator
int(int64(a.innovationNo) - int64(b.innovationNo)).  slices.SortFunc is an
unstable sort; it is modelled by insertion sort, which agrees with it on
every list whose innovation numbers are distinct (the only lists these
operations ever sort, since a network never holds two connections with the
same innovation number). -/
def sortConns (l : List connection) : List connection :=
  List.insertionSort (fun a b => a.innovationNo ≤ b.innovationNo) l

/-- Go's built-in copy(dst, src): overwrites the first min(len dst, len src)
elements of dst with those of src and leaves the rest of dst unchanged.
It never extends dst. -/
def copyList {α : Type} (dst src : List α) : List α :=
  src.take (min dst.length src.length) ++ dst.drop (min dst.length src.length)

/-- Network.Distance.  Returns the distance together with the updated
receiver and argument (the source sorts both connection lists in place,
sets their sorted flags, and increments the receiver's nSimilar counter
when the distance is below the 0.3 threshold).  Coefficients c1 = c2 = 1,
c3 = 0.4; N is floored to 1 below 20. -/
def Distance (net other : Network) : ℚ × Network × Network :=
  let N0 := max net.connections.length other.connections.length
  let N := if N0 < 20 then 1 else N0
  let net2 := if net.sorted then net
    else { net with connections := sortConns net.connections, sorted := true }
  let other2 := if other.sorted then other
    else { other with connections := sortConns other.connections, sorted := true }
  let stats :=
    (List.range N).foldl
      (fun (acc : Nat × Nat × Nat × ℚ) i =>
        if i ≥ net2.connections.length ∨ i ≥ other2.connections.length then
          (acc.1, acc.2.1 + 1, acc.2.2.1, acc.2.2.2)
        else if (net2.connections.getD i default).innovationNo =
            (other2.connections.getD i default).innovationNo then
          (acc.1 + 1, acc.2.1, acc.2.2.1,
           acc.2.2.2 +
             |(net2.connections.getD i default).weight -
               (other2.connections.getD i default).weight|)
        else (acc.1, acc.2.1, acc.2.2.1 + 1, acc.2.2.2))
      (0, 0, 0, 0)
  let MM := stats.1
  let E := stats.2.1
  let D := stats.2.2.1
  let weightsDiff := stats.2.2.2
  let W : ℚ := if MM > 0 then weightsDiff / (MM : ℚ) else 0
  let distance : ℚ := 1 * (E : ℚ) / (N : ℚ) + 1 * (D : ℚ) / (N : ℚ) + (2 / 5) * W
  let net3 := if distance < 3 / 10 then { net2 with nSimilar := net2.nSimilar + 1 } else net2
  (distance, net3, other2)

/-- Network.Crossover.  Returns (child, updated receiver, updated argument):
the source sorts both parents' connection lists in place (setting their
sorted flags).  The child starts as NewNetwork; aligned connection positions
up to the dominant (receiver) parent's length are inherited from the
dominant parent when the other parent is exhausted, else from either parent
by the coin for that index (rand.Float32() < 0.5).  The source's break once
the dominant parent is exhausted is modelled by the filterMap returning none
from that index on.  Finally copy(newNetwork.nodes, net.nodes) copies only
min(nInputs+nOutputs, len(net.nodes)) nodes: the Go copy builtin never grows
the destination. -/
def Crossover (net other : Network) (coins : Nat → Bool) : Network × Network × Network :=
  let net2 := if net.sorted then net
    else { net with connections := sortConns net.connections, sorted := true }
  let other2 := if other.sorted then other
    else { other with connections := sortConns other.connections, sorted := true }
  let newNetwork := NewNetwork net.nInputs net.nOutputs
  let N := max net2.connections.length other2.connections.length
  let childConns :=
    (List.range N).filterMap (fun i =>
      if i ≥ net2.connections.length then none
      else if i ≥ other2.connections.length then some (net2.connections.getD i default)
      else if coins i then some (net2.connections.getD i default)
      else some (other2.connections.getD i default))
  ({ newNetwork with
      connections := newNetwork.connections ++ childConns,
      nodes := copyList newNetwork.nodes net2.nodes },
   net2, other2)

/-- neat.DataEntry: one externally supplied evaluation pair. -/
structure DataEntry where
  input : List ℚ
  output : List ℚ

/-- The Go conversion uint32(x) of a non-negative float64: truncation toward
zero; an out-of-range value is implementation-dependent, modelled modulo
2^32. -/
def ratToUint32 (q : ℚ) : Nat := q.floor.toNat % U32

/-- Network.Feed: seed the per-node accumulators with the input (Go copy
into the nInputs prefix), group connections by their sender's layer, process
the layers in increasing order adding activation(senderAcc) * weight into
each enabled connection's receiver accumulator, finally apply the output
nodes' activations.  Connection buckets preserve connection order, as the
source's append to connectionsByLayer does. -/
def Feed (sem : ActivationSemantics) (net : Network) (input : List ℚ) : List ℚ :=
  let k := min net.nInputs input.length
  let accumulators0 := input.take k ++ (List.replicate net.nodes.length (0 : ℚ)).drop k
  let accumulators :=
    (List.range maxDepth).foldl
      (fun acc layer =>
        (net.connections.filter (fun c =>
            (net.nodes.getD c.endpoints.senderId default).layer = layer)).foldl
          (fun acc2 conn =>
            if conn.enabled = false then acc2
            else
              let inNode := net.nodes.getD conn.endpoints.senderId default
              let connInput := inNode.activation.Compute sem (acc2.getD conn.endpoints.senderId 0)
              let connOutput := connInput * conn.weight
              acc2.set conn.endpoints.receiverId
                (acc2.getD conn.endpoints.receiverId 0 + connOutput))
          acc)
      accumulators0
  (List.range net.nOutputs).map (fun i =>
    (net.nodes.getD (net.nInputs + i) default).activation.Compute sem
      (accumulators.getD (net.nInputs + i) 0))

/-- Network.ComputeAndSetFitnessScore.  Clears the mutation history when
non-empty, accumulates sum((nOutputs - totalAbsError)^2) over the test set,
and sets FitnessScore to uint32(10000 * fitness / float64(nSimilar)).
Failure (none) models the Go panic on a test entry whose vector lengths do
not match the network, and the float64 division by zero when nSimilar = 0
(whose uint32 conversion is implementation-defined in Go). -/
def ComputeAndSetFitnessScore (sem : ActivationSemantics) (testSet : List DataEntry)
    (net : Network) (gs : GlobalState) : Option (Network × GlobalState) :=
  let gs2 :=
    if historyLength gs.mutationHistory > 0 then
      { gs with mutationHistory := clearMutationHistory gs.mutationHistory }
    else gs
  let K : ℚ := 10000
  let fitnessAcc : Option ℚ :=
    testSet.foldl
      (fun acc entry =>
        acc.bind (fun fitness =>
          if entry.input.length ≠ net.nInputs ∨ entry.output.length ≠ net.nOutputs then none
          else
            let result := Feed sem net entry.input
            let err :=
              ((List.range net.nOutputs).map (fun i =>
                |result.getD i 0 - entry.output.getD i 0|)).sum
            some (fitness + ((net.nOutputs : ℚ) - err) ^ 2)))
      (some 0)
  fitnessAcc.bind (fun fitness =>
    if net.nSimilar = 0 then none
    else some ({ net with FitnessScore := ratToUint32 (K * fitness / (net.nSimilar : ℚ)) }, gs2))

/-- The package state after k direct calls of getNewInnovationNumber
starting from the zero value. -/
def gsAfter : Nat → GlobalState
  | 0 => initialGlobalState
  | k + 1 => (getNewInnovationNumber (gsAfter k)).2

/-- The innovation number returned by the (k+1)-th call of
getNewInnovationNumber in a run (k is 0-indexed). -/
def allocValue (k : Nat) : Nat := (getNewInnovationNumber (gsAfter k)).1

/-! ## Concrete instances used by witnesses and counterexamples -/

/-- A mutation sequence that would grow a multi-layer network: connect the
input to the output, split that connection, then split the first half of
the split.  Under the program's never-initialised registry its first
operation already panics.  All random weight draws are 0. -/
def cexOps : List MutationOp :=
  [.addConnectionOp 0 1 0, .addNodeOp 0 0 0, .addNodeOp 1 0 0]

/-- A 1-input 1-output network carrying one hidden node on layer 1 that
splits the input-output connection: three nodes, and three connections with
innovation numbers 0, 1, 2 (the shape an addConnection followed by an
addNode split would produce).  All weights are 0. -/
def c6Parent : Network :=
  { NewNetwork 1 1 with
      nodes := (NewNetwork 1 1).nodes ++ [⟨2, 1, ActivationFunction.tanh⟩],
      connections := [⟨⟨0, 1⟩, 0, true, 0⟩, ⟨⟨0, 2⟩, 0, true, 1⟩, ⟨⟨2, 1⟩, 0, true, 2⟩] }

/-- The crossover child of c6Parent (dominant) with a fresh network, with
every inheritance coin choosing the dominant parent. -/
def c6Child : Network := (Crossover c6Parent (NewNetwork 1 1) (fun _ => true)).1

/-- A 2-input 1-output network whose two connections are out of innovation
order ([1, 0]) and whose sorted flag is still false: a type-valid input for
Crossover that exercises its in-place sort of an unsorted parent. -/
def c7Parent : Network :=
  { NewNetwork 2 1 with
      connections := [⟨⟨1, 2⟩, 0, true, 1⟩, ⟨⟨0, 2⟩, 0, true, 0⟩] }

/-- A 1-input 1-output network holding a single disabled connection, used
to exercise the rejection (no-op) path of addNode. -/
def c2DisabledNet : Network :=
  { NewNetwork 1 1 with connections := [⟨⟨0, 1⟩, 0, false, 0⟩] }

/-- A 2-input 1-output network holding one enabled connection from node 0
to the output node, used to evaluate addNode at the program's initial
package state. -/
def c8Net : Network :=
  { NewNetwork 2 1 with connections := [⟨⟨0, 2⟩, 0, true, 0⟩] }

/-- A two-member population whose uint32 fitness scores sum to 2^32 + 2, so
the atomic uint32 accumulator wraps to 2. -/
def c4Pop : List SimpleMember := [⟨2147483649, 0⟩, ⟨2147483649, 0⟩]

/-- A three-member population with fitness scores 1, 2, 3 (no overflow). -/
def c4SmallPop : List SimpleMember := [⟨1, 0⟩, ⟨2, 0⟩, ⟨3, 0⟩]

/-- A solver with MaxGenerations = 0 over a singleton population. -/
def c5Solver : Solver SimpleMember :=
  { population := [⟨0, 0⟩]
    options :=
      { PopulationSize := 1, MaxGenerations := 0, MutationChance := 0, NBatches := 1,
        Speciation := false, Verbose := false }
    generationNo := 1 }

/-- A solver with MaxGenerations = 3 over a singleton population. -/
def c5WitnessSolver : Solver SimpleMember :=
  { population := [⟨0, 0⟩]
    options :=
      { PopulationSize := 1, MaxGenerations := 3, MutationChance := 0, NBatches := 1,
        Speciation := false, Verbose := false }
    generationNo := 1 }

/-- A two-member solver running a single generation, with distinct fitness
scores 5 and 7. -/
def c1Solver : Solver SimpleMember :=
  { population := [⟨5, 0⟩, ⟨7, 0⟩]
    options :=
      { PopulationSize := 2, MaxGenerations := 1, MutationChance := 0, NBatches := 1,
        Speciation := true, Verbose := false }
    generationNo := 1 }

/-- Options with population size 1 used by the C9 counterexample. -/
def c9Options : SolverOptions :=
  { PopulationSize := 1, MaxGenerations := 1, MutationChance := 0, NBatches := 1,
    Speciation := false, Verbose := false }

/-- Options used by the C9 witness: population size 2 and an oversized
requested batch count 5. -/
def c9WitnessOptions : SolverOptions :=
  { PopulationSize := 2, MaxGenerations := 1, MutationChance := 0, NBatches := 5,
    Speciation := false, Verbose := false }

/-! ## Theorems: the generic engine (claims C1 and C5) -/

/-- The running maximum computed by the fold of slices.MaxFunc splits the
list into a prefix of strictly smaller fitness, the selected element, and a
suffix of no larger fitness: it is the first occurrence of the maximum. -/
theorem maxFunc_spec {M : Type} (fit : M → Nat) (x : M) (xs : List M) :
    ∃ pre post,
      x :: xs =
        pre ++ (xs.foldl (fun m y => if 0 < (fit y : Int) - (fit m : Int) then y else m) x) :: post ∧
      (∀ z ∈ pre,
        fit z < fit (xs.foldl (fun m y => if 0 < (fit y : Int) - (fit m : Int) then y else m) x)) ∧
      (∀ z ∈ post,
        fit z ≤ fit (xs.foldl (fun m y => if 0 < (fit y : Int) - (fit m : Int) then y else m) x)) := by
  induction xs generalizing x with
  | nil => exact ⟨[], [], rfl, by simp, by simp⟩
  | cons y ys ih =>
    simp only [List.foldl_cons]
    by_cases h : fit x < fit y
    · rw [if_pos (show (0 : Int) < (fit y : Int) - (fit x : Int) by omega)]
      obtain ⟨pre, post, hdec, hpre, hpost⟩ := ih y
      have hyr : fit y ≤
          fit (ys.foldl (fun m y => if 0 < (fit y : Int) - (fit m : Int) then y else m) y) := by
        cases pre with
        | nil =>
          simp only [List.nil_append, List.cons.injEq] at hdec
          exact le_of_eq (congrArg fit hdec.1)
        | cons a tl =>
          simp only [List.cons_append, List.cons.injEq] at hdec
          have ha := hpre a (by simp)
          rw [← hdec.1] at ha
          omega
      refine ⟨x :: pre, post, ?_, ?_, hpost⟩
      · rw [List.cons_append, ← hdec]
      · intro z hz
        rcases List.mem_cons.mp hz with hz | hz
        · subst hz; omega
        · exact hpre z hz
    · rw [if_neg (show ¬ (0 : Int) < (fit y : Int) - (fit x : Int) by omega)]
      obtain ⟨pre, post, hdec, hpre, hpost⟩ := ih x
      cases pre with
      | nil =>
        simp only [List.nil_append, List.cons.injEq] at hdec
        refine ⟨[], y :: post, ?_, by simp, ?_⟩
        · simp only [List.nil_append]
          rw [← hdec.1, hdec.2]
        · intro z hz
          rcases List.mem_cons.mp hz with hz | hz
          · subst hz
            have := congrArg fit hdec.1
            omega
          · exact hpost z hz
      | cons a tl =>
        simp only [List.cons_append, List.cons.injEq] at hdec
        have hxr := hpre a (by simp)
        rw [← hdec.1] at hxr
        refine ⟨x :: y :: tl, post, ?_, ?_, hpost⟩
        · simp only [List.cons_append]
          conv_lhs => rw [hdec.2]
        · intro z hz
          rcases List.mem_cons.mp hz with hz | hz
          · subst hz; omega
          · rcases List.mem_cons.mp hz with hz | hz
            · subst hz; omega
            · exact hpre z (List.mem_cons_of_mem a hz)

/-- The generation loop executes gensLeft + 1 iterations of its body. -/
theorem solveLoop_count {M : Type} (o : EngineOracle M) (opts : SolverOptions) :
    ∀ N g pop, gensLeft opts.MaxGenerations g = N →
      (solveLoop o opts g pop).2.1 = N + 1 := by
  intro N
  induction N using Nat.strong_induction_on with
  | _ N ih =>
    intro g pop hN
    rw [solveLoop]
    by_cases hg : g % U32 = opts.MaxGenerations % U32
    · have h0 : N = 0 := by
        simp only [gensLeft, U32] at hN hg ⊢; omega
      simp only [if_pos hg]
      omega
    · have h2 : gensLeft opts.MaxGenerations ((g + 1) % U32) = N - 1 := by
        simp only [gensLeft, U32] at hN hg ⊢; omega
      have h1 : 1 ≤ N := by
        simp only [gensLeft, U32] at hN hg ⊢; omega
      have h3 := ih (N - 1) (by omega) ((g + 1) % U32)
        ((List.range opts.PopulationSize).map (fun i => o.breedUpd g i
          (assignSurvival o.ops opts.PopulationSize
            ((((if opts.Speciation then (List.range pop.length).map (fun i => o.distUpd i pop) else pop).map
              o.ops.computeFitness).map o.ops.getFitnessScore).sum % U32)
            ((if opts.Speciation then (List.range pop.length).map (fun i => o.distUpd i pop) else pop).map
              o.ops.computeFitness)))) h2
      simp only [if_neg hg]
      rw [h3]
      omega

/-- The generation loop returns the best member (in the sense of
getBestMember) of the final population, which is non-empty whenever the
starting population is non-empty and the configured population size is
positive. -/
theorem solveLoop_result {M : Type} (o : EngineOracle M) (opts : SolverOptions) :
    ∀ N g pop, gensLeft opts.MaxGenerations g = N →
      (solveLoop o opts g pop).1 = getBestMember o.ops (solveLoop o opts g pop).2.2 ∧
      (pop ≠ [] → 1 ≤ opts.PopulationSize → (solveLoop o opts g pop).2.2 ≠ []) := by
  intro N
  induction N using Nat.strong_induction_on with
  | _ N ih =>
    intro g pop hN
    rw [solveLoop]
    by_cases hg : g % U32 = opts.MaxGenerations % U32
    · simp only [if_pos hg]
      refine ⟨by trivial, ?_⟩
      intro hpop hps
      have hlen : pop.length ≠ 0 := by
        intro h0; exact hpop (List.length_eq_zero.mp h0)
      by_cases hs : opts.Speciation <;>
        simp [hs, List.map_eq_nil_iff, List.range_eq_nil, hpop, hlen]
    · have h2 : gensLeft opts.MaxGenerations ((g + 1) % U32) = N - 1 := by
        simp only [gensLeft, U32] at hN hg ⊢; omega
      have h1 : 1 ≤ N := by
        simp only [gensLeft, U32] at hN hg ⊢; omega
      have h3 := ih (N - 1) (by omega) ((g + 1) % U32)
        ((List.range opts.PopulationSize).map (fun i => o.breedUpd g i
          (assignSurvival o.ops opts.PopulationSize
            ((((if opts.Speciation then (List.range pop.length).map (fun i => o.distUpd i pop) else pop).map
              o.ops.computeFitness).map o.ops.getFitnessScore).sum % U32)
            ((if opts.Speciation then (List.range pop.length).map (fun i => o.distUpd i pop) else pop).map
              o.ops.computeFitness)))) h2
      simp only [if_neg hg]
      refine ⟨h3.1, fun _ hps => h3.2 ?_ hps⟩
      simp only [ne_eq, List.map_eq_nil_iff, List.range_eq_nil]
      omega

/-- C1: for every run configuration with MaxGenerations ≥ 1 (a uint32, hence
below 2^32), Solve returns the member of the final generation's population
whose fitness score is maximal, and among equal maximal scores the one at
the smallest population index: the final population splits into a prefix of
strictly smaller scores, the returned member, and a suffix of no larger
scores. -/
theorem c1_solve_best {M : Type} (o : EngineOracle M) (s : Solver M)
    (hmax : 1 ≤ s.options.MaxGenerations) (hlt : s.options.MaxGenerations < U32)
    (hgen : s.generationNo = 1) (hpop : s.population ≠ [])
    (hps : 1 ≤ s.options.PopulationSize) :
    ∃ best pre post,
      (Solve o s).1 = some best ∧
      (Solve o s).2.2 = pre ++ best :: post ∧
      (∀ z ∈ pre, o.ops.getFitnessScore z < o.ops.getFitnessScore best) ∧
      (∀ z ∈ post, o.ops.getFitnessScore z ≤ o.ops.getFitnessScore best) := by
  obtain ⟨hres, hne⟩ := solveLoop_result o s.options
    (gensLeft s.options.MaxGenerations s.generationNo) s.generationNo s.population rfl
  have hfp := hne hpop hps
  simp only [Solve]
  rcases hfpe : (solveLoop o s.options s.generationNo s.population).2.2 with _ | ⟨x, xs⟩
  · exact absurd hfpe hfp
  · rw [hfpe] at hres
    obtain ⟨pre, post, hdec, hpre, hpost⟩ := maxFunc_spec o.ops.getFitnessScore x xs
    refine ⟨_, pre, post, ?_, ?_, hpre, hpost⟩
    · rw [hres]; rfl
    · exact hdec

/-- Witness for C1 at a concrete two-member solver running one generation. -/
theorem c1_solve_best_witness :
    ∃ best pre post,
      (Solve simpleOracle c1Solver).1 = some best ∧
      (Solve simpleOracle c1Solver).2.2 = pre ++ best :: post ∧
      (∀ z ∈ pre, simpleOracle.ops.getFitnessScore z < simpleOracle.ops.getFitnessScore best) ∧
      (∀ z ∈ post, simpleOracle.ops.getFitnessScore z ≤ simpleOracle.ops.getFitnessScore best) :=
  c1_solve_best simpleOracle c1Solver (by decide) (by decide) rfl (by simp [c1Solver]) (by decide)

/-- C5 (amended): Solve always terminates; for MaxGenerations ≥ 1 the
generation loop body executes exactly MaxGenerations times, but for
MaxGenerations = 0 the uint32 generation counter (which starts at 1) wraps
around and the loop body executes 2^32 times before returning. -/
theorem c5_loop_count {M : Type} (o : EngineOracle M) (s : Solver M)
    (hlt : s.options.MaxGenerations < U32) (hgen : s.generationNo = 1) :
    (Solve o s).2.1 =
      if s.options.MaxGenerations = 0 then U32 else s.options.MaxGenerations := by
  have h := solveLoop_count o s.options
    (gensLeft s.options.MaxGenerations s.generationNo) s.generationNo s.population rfl
  simp only [Solve]
  rw [h, hgen]
  simp only [gensLeft, U32] at hlt ⊢
  split <;> omega

/-- Witness for the amended C5 at MaxGenerations = 3: three iterations. -/
theorem c5_loop_count_witness :
    (Solve simpleOracle c5WitnessSolver).2.1 =
      if c5WitnessSolver.options.MaxGenerations = 0 then U32
      else c5WitnessSolver.options.MaxGenerations :=
  c5_loop_count simpleOracle c5WitnessSolver (by decide) rfl

/-- Counterexample to C5 as stated: with MaxGenerations = 0 the loop body
executes 2^32 times, not 0 times. -/
theorem c5_counterexample :
    (Solve simpleOracle c5Solver).2.1 = U32 ∧
    (Solve simpleOracle c5Solver).2.1 ≠ c5Solver.options.MaxGenerations := by
  have h := solveLoop_count simpleOracle c5Solver.options
    (gensLeft c5Solver.options.MaxGenerations 1) 1 c5Solver.population rfl
  have hv : gensLeft c5Solver.options.MaxGenerations 1 = U32 - 1 := by decide
  have h1 : (Solve simpleOracle c5Solver).2.1 = U32 := by
    simp only [Solve]
    rw [show c5Solver.generationNo = 1 from rfl, h, hv]
    simp only [U32]
  refine ⟨h1, ?_⟩
  rw [h1]
  decide

/-! ## Theorems: BatchPlanner (claim C3) -/

/-- Closed form of the BuildBatchesList loop: when all batches fit under
nElements the clamp never fires and the loop produces the arithmetic
sequence of ranges of size batchSize. -/
theorem buildLoop_closed (n bs : Nat) :
    ∀ (k s : Nat), s + k * bs ≤ n →
      buildLoop n bs k s (s + bs) =
        (List.range k).map (fun i => ⟨s + i * bs, s + (i + 1) * bs⟩) := by
  intro k
  induction k with
  | zero => intro s _; simp [buildLoop]
  | succ k ih =>
    intro s h
    rw [Nat.succ_mul] at h
    rw [buildLoop]
    have hcl : ¬ (s + bs > n) := by omega
    simp only [if_neg hcl]
    rw [ih (s + bs) (by omega), List.range_succ_eq_map]
    simp only [List.map_cons, List.map_map, List.cons.injEq]
    refine ⟨by simp, ?_⟩
    apply List.map_congr_left
    intro i _
    simp only [Function.comp_apply, BatchInfo.mk.injEq, Nat.succ_mul, Nat.succ_eq_add_one]
    omega

/-- Element-wise description of BuildBatchesList for 1 ≤ b ≤ n: exactly b
ranges, the i-th starting at i * (n / b), each ending at the next multiple
of n / b except the last, which ends at n. -/
theorem buildBatches_elem (n b : Nat) (hb : 1 ≤ b) (hbn : b ≤ n) :
    (BuildBatchesList n b).length = b ∧
    ∀ i, i < b → (BuildBatchesList n b).getD i default =
      ⟨i * (n / b), if i = b - 1 then n else (i + 1) * (n / b)⟩ := by
  have hn : ¬ (n = 0) := by omega
  have hfit : 0 + b * (n / b) ≤ n := by
    have h1 : n / b * b ≤ n := Nat.div_mul_le_self n b
    have h2 : b * (n / b) = n / b * b := Nat.mul_comm _ _
    omega
  have hcl := buildLoop_closed n (n / b) b 0 hfit
  simp only [Nat.zero_add] at hcl
  have hlenb : (buildLoop n (n / b) b 0 (n / b)).length = b := by
    rw [hcl]; simp
  have helem : ∀ i, i < b → (buildLoop n (n / b) b 0 (n / b)).getD i default =
      ⟨i * (n / b), (i + 1) * (n / b)⟩ := by
    intro i hi
    rw [hcl]
    rw [List.getD_eq_getElem _ _ (by simpa using hi)]
    simp
  have hb1 : b - 1 + 1 = b := by omega
  have hlast : (buildLoop n (n / b) b 0 (n / b)).getD (b - 1) default =
      ⟨(b - 1) * (n / b), b * (n / b)⟩ := by
    rw [helem (b - 1) (by omega), hb1]
  have hmain : BuildBatchesList n b =
      (if ((buildLoop n (n / b) b 0 (n / b)).getD (b - 1) default).End ≠ n then
        (buildLoop n (n / b) b 0 (n / b)).set (b - 1)
          ⟨((buildLoop n (n / b) b 0 (n / b)).getD (b - 1) default).Start, n⟩
      else buildLoop n (n / b) b 0 (n / b)) := by
    simp only [BuildBatchesList, if_neg hn]
  by_cases hfix : b * (n / b) = n
  · have hcond : ¬ (((buildLoop n (n / b) b 0 (n / b)).getD (b - 1) default).End ≠ n) := by
      rw [hlast]; simpa using hfix
    rw [hmain, if_neg hcond]
    refine ⟨hlenb, ?_⟩
    intro i hi
    rw [helem i hi]
    by_cases hieq : i = b - 1
    · subst hieq
      simp [hb1, hfix]
    · simp [hieq]
  · have hcond : (((buildLoop n (n / b) b 0 (n / b)).getD (b - 1) default).End ≠ n) := by
      rw [hlast]; simpa using hfix
    rw [hmain, if_pos hcond, hlast]
    refine ⟨by rw [List.length_set, hlenb], ?_⟩
    intro i hi
    rw [List.getD_eq_getElem _ _ (by rw [List.length_set, hlenb]; exact hi)]
    rw [List.getElem_set]
    by_cases hieq : b - 1 = i
    · rw [if_pos hieq, ← hieq]
      simp
    · rw [if_neg hieq]
      rw [← List.getD_eq_getElem _ default (by rw [hlenb]; exact hi)]
      rw [helem i hi]
      simp [show ¬ i = b - 1 by omega]

/-- C3: for 1 ≤ nBatches ≤ max(nElements, 1), BuildBatchesList returns []
when nElements = 0 and otherwise exactly nBatches half-open ranges that are
contiguous and pairwise non-overlapping, whose union is exactly
[0, nElements); every range but the last has size nElements / nBatches and
the last absorbs the remainder; concretely BuildBatchesList 10 3 =
[0,3), [3,6), [6,10). -/
theorem c3_buildBatches (n b : Nat) (hb : 1 ≤ b) (hbmax : b ≤ max n 1) :
    (n = 0 → BuildBatchesList n b = []) ∧
    (1 ≤ n →
      (BuildBatchesList n b).length = b ∧
      ((BuildBatchesList n b).getD 0 default).Start = 0 ∧
      ((BuildBatchesList n b).getD (b - 1) default).End = n ∧
      (∀ i, i + 1 < b →
        ((BuildBatchesList n b).getD (i + 1) default).Start =
          ((BuildBatchesList n b).getD i default).End) ∧
      (∀ i j, i < j → j < b →
        ((BuildBatchesList n b).getD i default).End ≤
          ((BuildBatchesList n b).getD j default).Start) ∧
      (∀ i, i + 1 < b →
        ((BuildBatchesList n b).getD i default).End -
          ((BuildBatchesList n b).getD i default).Start = n / b) ∧
      (((BuildBatchesList n b).getD (b - 1) default).End -
        ((BuildBatchesList n b).getD (b - 1) default).Start = n / b + n % b) ∧
      (∀ x, x < n ↔ ∃ i, i < b ∧
        ((BuildBatchesList n b).getD i default).Start ≤ x ∧
          x < ((BuildBatchesList n b).getD i default).End)) ∧
    BuildBatchesList 10 3 = [⟨0, 3⟩, ⟨3, 6⟩, ⟨6, 10⟩] := by
  refine ⟨fun h0 => by simp [BuildBatchesList, h0], ?_, by decide⟩
  intro hn1
  have hbn : b ≤ n := by omega
  obtain ⟨hlen, helem⟩ := buildBatches_elem n b hb hbn
  have hb0 : 0 < b := hb
  have hbs1 : 1 ≤ n / b := (Nat.one_le_div_iff hb0).mpr hbn
  have hdm := Nat.div_add_mod n b
  have hbmul : b * (n / b) = (b - 1) * (n / b) + (n / b) := by
    have h1 : (b - 1) * (n / b) = b * (n / b) - (n / b) := Nat.sub_one_mul b (n / b)
    have h2 : (n / b) ≤ b * (n / b) := Nat.le_mul_of_pos_left (n / b) hb0
    omega
  have hble : b * (n / b) ≤ n := by
    have h1 : n / b * b ≤ n := Nat.div_mul_le_self n b
    have h2 : b * (n / b) = n / b * b := Nat.mul_comm _ _
    omega
  refine ⟨hlen, ?_, ?_, ?_, ?_, ?_, ?_, ?_⟩
  · rw [helem 0 (by omega)]
    simp
  · rw [helem (b - 1) (by omega)]
    simp
  · intro i hi
    rw [helem (i + 1) (by omega), helem i (by omega)]
    simp [show ¬ i = b - 1 by omega]
  · intro i j hij hj
    rw [helem i (by omega), helem j (by omega)]
    dsimp only
    rw [if_neg (show ¬ i = b - 1 by omega)]
    exact Nat.mul_le_mul_right _ (by omega)
  · intro i hi
    rw [helem i (by omega)]
    dsimp only
    rw [if_neg (show ¬ i = b - 1 by omega)]
    simp only [Nat.succ_mul]
    omega
  · rw [helem (b - 1) (by omega)]
    dsimp only
    rw [if_pos rfl]
    omega
  · intro x
    constructor
    · intro hx
      by_cases hcase : x / (n / b) < b - 1
      · refine ⟨x / (n / b), by omega, ?_, ?_⟩
        · rw [helem _ (by omega)]
          dsimp only
          exact Nat.div_mul_le_self x (n / b)
        · rw [helem _ (by omega)]
          dsimp only
          rw [if_neg (show ¬ x / (n / b) = b - 1 by omega)]
          have e1 : (x / (n / b) + 1) * (n / b) = x / (n / b) * (n / b) + (n / b) :=
            Nat.succ_mul _ _
          have e3 := Nat.div_add_mod x (n / b)
          have e4 : x % (n / b) < n / b := Nat.mod_lt x (by omega)
          have e2 : (n / b) * (x / (n / b)) = x / (n / b) * (n / b) := Nat.mul_comm _ _
          omega
      · refine ⟨b - 1, by omega, ?_, ?_⟩
        · rw [helem _ (by omega)]
          dsimp only
          exact (Nat.le_div_iff_mul_le (show 0 < n / b by omega)).mp (by omega)
        · rw [helem _ (by omega)]
          dsimp only
          rw [if_pos rfl]
          exact hx
    · rintro ⟨i, hi, h1, h2⟩
      rw [helem i hi] at h1 h2
      dsimp only at h1 h2
      by_cases hieq : i = b - 1
      · rw [if_pos hieq] at h2
        exact h2
      · rw [if_neg hieq] at h2
        have hmle : (i + 1) * (n / b) ≤ b * (n / b) :=
          Nat.mul_le_mul_right _ (by omega)
        omega

/-- Witness for C3 at the concrete input nElements = 10, nBatches = 3. -/
theorem c3_buildBatches_witness :
    ((10 : Nat) = 0 → BuildBatchesList 10 3 = []) ∧
    (1 ≤ (10 : Nat) →
      (BuildBatchesList 10 3).length = 3 ∧
      ((BuildBatchesList 10 3).getD 0 default).Start = 0 ∧
      ((BuildBatchesList 10 3).getD (3 - 1) default).End = 10 ∧
      (∀ i, i + 1 < 3 →
        ((BuildBatchesList 10 3).getD (i + 1) default).Start =
          ((BuildBatchesList 10 3).getD i default).End) ∧
      (∀ i j, i < j → j < 3 →
        ((BuildBatchesList 10 3).getD i default).End ≤
          ((BuildBatchesList 10 3).getD j default).Start) ∧
      (∀ i, i + 1 < 3 →
        ((BuildBatchesList 10 3).getD i default).End -
          ((BuildBatchesList 10 3).getD i default).Start = 10 / 3) ∧
      (((BuildBatchesList 10 3).getD (3 - 1) default).End -
        ((BuildBatchesList 10 3).getD (3 - 1) default).Start = 10 / 3 + 10 % 3) ∧
      (∀ x, x < 10 ↔ ∃ i, i < 3 ∧
        ((BuildBatchesList 10 3).getD i default).Start ≤ x ∧
          x < ((BuildBatchesList 10 3).getD i default).End)) ∧
    BuildBatchesList 10 3 = [⟨0, 3⟩, ⟨3, 6⟩, ⟨6, 10⟩] :=
  c3_buildBatches 10 3 (by decide) (by decide)

/-! ## Theorems: survival chances (claim C4) and construction (claim C9) -/

/-- Helper: the sum of fitness/S over a population is the summed fitness
divided by S. -/
theorem sum_fit_div {M : Type} (fit : M → Nat) (S : ℚ) (pop : List M) :
    (pop.map (fun m => (fit m : ℚ) / S)).sum = ((pop.map fit).sum : ℚ) / S := by
  induction pop with
  | nil => simp
  | cons x xs ih =>
    simp only [List.map_cons, List.sum_cons, ih, List.map_cons]
    push_cast
    rw [add_div]

/-- C4 (amended): after the survival-chance assignment phase every genome's
chance is its fitness divided by the uint32-accumulated fitness sum when
that accumulator is non-zero, and 1/PopulationSize when it is zero; the
chances sum to exactly 1 whenever the true fitness sum is non-zero and
below 2^32 (so that the uint32 accumulator does not wrap). -/
theorem c4_survival {M : Type} (ops : MemberOps M) (popSize fitnessSum : Nat)
    (pop : List M)
    (hsg : ∀ m c, ops.getSurvivalChance (ops.setSurvivalChance m c) = c)
    (hfs : fitnessSum = ((pop.map ops.getFitnessScore).sum) % U32) :
    ((assignSurvival ops popSize fitnessSum pop).map ops.getSurvivalChance =
      pop.map (fun m =>
        if fitnessSum ≠ 0 then (ops.getFitnessScore m : ℚ) / (fitnessSum : ℚ)
        else 1 / (popSize : ℚ))) ∧
    (fitnessSum = 0 →
      (assignSurvival ops popSize fitnessSum pop).map ops.getSurvivalChance =
        pop.map (fun _ => 1 / (popSize : ℚ))) ∧
    (0 < (pop.map ops.getFitnessScore).sum → (pop.map ops.getFitnessScore).sum < U32 →
      ((assignSurvival ops popSize fitnessSum pop).map ops.getSurvivalChance).sum = 1) := by
  have hpt : (assignSurvival ops popSize fitnessSum pop).map ops.getSurvivalChance =
      pop.map (fun m =>
        if fitnessSum ≠ 0 then (ops.getFitnessScore m : ℚ) / (fitnessSum : ℚ)
        else 1 / (popSize : ℚ)) := by
    simp only [assignSurvival, List.map_map]
    apply List.map_congr_left
    intro m _
    simp only [Function.comp_apply, hsg]
  refine ⟨hpt, ?_, ?_⟩
  · intro h0
    rw [hpt]
    simp [h0]
  · intro hpos hlt
    have hnowrap : ((pop.map ops.getFitnessScore).sum) % U32 =
        (pop.map ops.getFitnessScore).sum := Nat.mod_eq_of_lt hlt
    have hS : fitnessSum = (pop.map ops.getFitnessScore).sum := by rw [hfs, hnowrap]
    have hSne : fitnessSum ≠ 0 := by omega
    rw [hpt]
    have : (pop.map (fun m =>
        if fitnessSum ≠ 0 then (ops.getFitnessScore m : ℚ) / (fitnessSum : ℚ)
        else 1 / (popSize : ℚ))) =
        pop.map (fun m => (ops.getFitnessScore m : ℚ) / (fitnessSum : ℚ)) := by
      apply List.map_congr_left
      intro m _
      rw [if_pos hSne]
    rw [this, sum_fit_div ops.getFitnessScore (fitnessSum : ℚ) pop, hS]
    apply div_self
    have : (0 : ℚ) < ((pop.map ops.getFitnessScore).sum : ℚ) := by
      exact_mod_cast hpos
    exact ne_of_gt this

/-- Witness for the amended C4 at a concrete three-member population with
fitness scores 1, 2, 3. -/
theorem c4_survival_witness :
    ((assignSurvival simpleOps 3 (((c4SmallPop.map simpleOps.getFitnessScore).sum) % U32)
        c4SmallPop).map simpleOps.getSurvivalChance =
      c4SmallPop.map (fun m =>
        if (((c4SmallPop.map simpleOps.getFitnessScore).sum) % U32) ≠ 0 then
          (simpleOps.getFitnessScore m : ℚ) /
            ((((c4SmallPop.map simpleOps.getFitnessScore).sum) % U32 : Nat) : ℚ)
        else 1 / (3 : ℚ))) ∧
    ((((c4SmallPop.map simpleOps.getFitnessScore).sum) % U32) = 0 →
      (assignSurvival simpleOps 3 (((c4SmallPop.map simpleOps.getFitnessScore).sum) % U32)
        c4SmallPop).map simpleOps.getSurvivalChance =
        c4SmallPop.map (fun _ => 1 / (3 : ℚ))) ∧
    (0 < (c4SmallPop.map simpleOps.getFitnessScore).sum →
      (c4SmallPop.map simpleOps.getFitnessScore).sum < U32 →
      ((assignSurvival simpleOps 3 (((c4SmallPop.map simpleOps.getFitnessScore).sum) % U32)
        c4SmallPop).map simpleOps.getSurvivalChance).sum = 1) :=
  c4_survival simpleOps 3 _ c4SmallPop (fun _ _ => rfl) rfl

/-- Counterexample to C4 as stated: two members with fitness 2^31 + 1 each
have a non-zero total fitness (and a non-zero wrapped accumulator, which is
2), yet the survival chances assigned by the code sum to 2^31 + 1, not 1. -/
theorem c4_counterexample :
    (c4Pop.map simpleOps.getFitnessScore).sum ≠ 0 ∧
    ((c4Pop.map simpleOps.getFitnessScore).sum) % U32 ≠ 0 ∧
    ((assignSurvival simpleOps 2 (((c4Pop.map simpleOps.getFitnessScore).sum) % U32)
        c4Pop).map simpleOps.getSurvivalChance).sum = 2147483649 ∧
    ((assignSurvival simpleOps 2 (((c4Pop.map simpleOps.getFitnessScore).sum) % U32)
        c4Pop).map simpleOps.getSurvivalChance).sum ≠ 1 := by
  have hsum :
      ((assignSurvival simpleOps 2 (((c4Pop.map simpleOps.getFitnessScore).sum) % U32)
        c4Pop).map simpleOps.getSurvivalChance).sum = 2147483649 := by
    simp [assignSurvival, simpleOps, c4Pop, U32]
  refine ⟨by decide, by decide, hsum, ?_⟩
  rw [hsum]
  norm_num

/-- C9 (amended): NewSolver fails exactly when the configured population
size is zero or the uint32-truncated population length differs from it (for
populations shorter than 2^32 this is exactly a length mismatch); on
success no state beyond the returned solver exists, the members are stored
as supplied, the generation counter starts at 1, and the effective NBatches
is the requested value clamped into [1, PopulationSize]. -/
theorem c9_newSolver {M : Type} (members : List M) (options : SolverOptions) :
    ((∃ e, NewSolver members options = Except.error e) ↔
      options.PopulationSize = 0 ∨ members.length % U32 ≠ options.PopulationSize) ∧
    (∀ s, NewSolver members options = Except.ok s →
      s.population = members ∧
      s.generationNo = 1 ∧
      s.options.PopulationSize = options.PopulationSize ∧
      1 ≤ s.options.NBatches ∧
      s.options.NBatches ≤ options.PopulationSize ∧
      (1 ≤ options.NBatches → options.NBatches ≤ options.PopulationSize →
        s.options.NBatches = options.NBatches) ∧
      (options.NBatches = 0 → s.options.NBatches = 1) ∧
      (options.NBatches > options.PopulationSize →
        s.options.NBatches = options.PopulationSize)) := by
  constructor
  · constructor
    · rintro ⟨e, he⟩
      simp only [NewSolver] at he
      split_ifs at he with h1 h2 h3 h4 <;>
        first
          | exact Or.inl h1
          | exact Or.inr h2
          | cases he
    · intro h
      rcases h with h | h
      · exact ⟨_, by rw [NewSolver, if_pos h]⟩
      · by_cases hp : options.PopulationSize = 0
        · exact ⟨_, by rw [NewSolver, if_pos hp]⟩
        · exact ⟨_, by rw [NewSolver, if_neg hp, if_pos h]⟩
  · intro s hs
    simp only [NewSolver] at hs
    split_ifs at hs with h1 h2 h3 h4 <;>
      cases hs <;>
      refine ⟨rfl, rfl, rfl, ?_, ?_, ?_, ?_, ?_⟩ <;>
      (try dsimp only at *) <;>
      omega

/-- Witness for the amended C9 at a concrete two-member population with an
oversized requested batch count. -/
theorem c9_newSolver_witness :
    ((∃ e, NewSolver [(), ()] c9WitnessOptions = Except.error e) ↔
      c9WitnessOptions.PopulationSize = 0 ∨
        ([(), ()] : List Unit).length % U32 ≠ c9WitnessOptions.PopulationSize) ∧
    (∀ s, NewSolver [(), ()] c9WitnessOptions = Except.ok s →
      s.population = [(), ()] ∧
      s.generationNo = 1 ∧
      s.options.PopulationSize = c9WitnessOptions.PopulationSize ∧
      1 ≤ s.options.NBatches ∧
      s.options.NBatches ≤ c9WitnessOptions.PopulationSize ∧
      (1 ≤ c9WitnessOptions.NBatches →
        c9WitnessOptions.NBatches ≤ c9WitnessOptions.PopulationSize →
        s.options.NBatches = c9WitnessOptions.NBatches) ∧
      (c9WitnessOptions.NBatches = 0 → s.options.NBatches = 1) ∧
      (c9WitnessOptions.NBatches > c9WitnessOptions.PopulationSize →
        s.options.NBatches = c9WitnessOptions.PopulationSize)) :=
  c9_newSolver [(), ()] c9WitnessOptions

/-- Counterexample to C9 as stated: a population of 2^32 + 1 members with
configured population size 1 is accepted by NewSolver (its length is
truncated to uint32 before the comparison), although its length differs
from PopulationSize, so construction does not fail if and only if the
length matches. -/
theorem c9_counterexample :
    NewSolver (List.replicate (U32 + 1) ()) c9Options =
      Except.ok ⟨List.replicate (U32 + 1) (), c9Options, 1⟩ ∧
    (List.replicate (U32 + 1) ()).length ≠ c9Options.PopulationSize := by
  constructor
  · simp only [NewSolver, List.length_replicate]
    norm_num [c9Options, U32]
  · rw [List.length_replicate]
    simp [c9Options, U32]

/-! ## Theorems: NEAT structural mutations (claims C2 and C8) -/

/-- An addConnection under the program's forever-nil mutation history either
leaves the network and the package state untouched (one of the guard
rejections, or the unreachable copy branch) or panics on the nil-map
recording write: it can never append a fresh connection. -/
theorem addConnection_nil_map (net : Network) (gs : GlobalState) (s r : Nat) (w : ℚ)
    (hnil : gs.mutationHistory = none) :
    addConnection net gs s r w = some (net, gs) ∨ addConnection net gs s r w = none := by
  unfold addConnection
  by_cases h0 : net.nodes.length = 0
  · simp only [if_pos h0]
    right; trivial
  · simp only [if_neg h0]
    by_cases hguard : s % net.nodes.length = r % net.nodes.length ∨
        (net.nodes.getD (s % net.nodes.length) default).layer ≥
          (net.nodes.getD (r % net.nodes.length) default).layer
    · simp only [if_pos hguard]
      left; trivial
    · simp only [if_neg hguard]
      by_cases hdup : net.connections.any (fun c => c.endpoints =
          (⟨s % net.nodes.length, r % net.nodes.length⟩ : connectionNodes))
      · simp only [if_pos hdup]
        left; trivial
      · simp only [if_neg hdup]
        right
        simp only [getNewInnovationNumber, hnil, historyLookup, historyInsert]

/-- An addNode under the program's forever-nil mutation history either
leaves the network and the package state untouched or panics (rand.IntN(0)
on a network without connections, or the nil-map recording write): it can
never split a connection. -/
theorem addNode_nil_map (net : Network) (gs : GlobalState) (cp : Nat) (w1 w2 : ℚ)
    (hnil : gs.mutationHistory = none) :
    addNode net gs cp w1 w2 = some (net, gs) ∨ addNode net gs cp w1 w2 = none := by
  unfold addNode
  by_cases h0 : net.connections.length = 0
  · simp only [if_pos h0]
    right; trivial
  · simp only [if_neg h0]
    by_cases hen : (net.connections.getD (cp % net.connections.length) default).enabled = false
    · simp only [if_pos hen]
      left; trivial
    · simp only [if_neg hen]
      by_cases hd : (net.nodes.getD
          (net.connections.getD (cp % net.connections.length) default).endpoints.senderId
          default).layer + 1 ≥ maxDepth
      · simp only [if_pos hd]
        left; trivial
      · simp only [if_neg hd]
        right
        simp only [getNewInnovationNumber, hnil, historyLookup, historyInsert]

/-- C2: the claimed invariant is unreachable, because the program cannot
complete any connection-creating mutation.  The package-level map
mutationHistory is declared but never initialised with make, so it is nil
for the whole process, and the recording write of every fresh structural
mutation (neat.go:137 and neat.go:180-181) is an assignment to an entry of
a nil map: a Go runtime panic.  Formally: under a nil history, every
addConnection or addNode that returns at all returns its input unchanged;
the very first fresh addConnection (from NewNetwork(1,1) and the initial
package state) panics; and the mutation sequence cexOps, which would have
to build a multi-layer network, panics at its first operation. -/
theorem c2_structural_mutation_panics :
    (∀ (net : Network) (gs : GlobalState) (s r : Nat) (w : ℚ)
        (net2 : Network) (gs2 : GlobalState),
      gs.mutationHistory = none →
      addConnection net gs s r w = some (net2, gs2) → net2 = net ∧ gs2 = gs) ∧
    (∀ (net : Network) (gs : GlobalState) (cp : Nat) (w1 w2 : ℚ)
        (net2 : Network) (gs2 : GlobalState),
      gs.mutationHistory = none →
      addNode net gs cp w1 w2 = some (net2, gs2) → net2 = net ∧ gs2 = gs) ∧
    addConnection (NewNetwork 1 1) initialGlobalState 0 1 0 = none ∧
    applyOps (NewNetwork 1 1) initialGlobalState cexOps = none := by
  refine ⟨?_, ?_, by decide, by decide⟩
  · intro net gs s r w net2 gs2 hnil h
    rcases addConnection_nil_map net gs s r w hnil with hc | hc
    · rw [hc, Option.some.injEq, Prod.mk.injEq] at h
      exact ⟨h.1.symm, h.2.symm⟩
    · rw [hc] at h
      cases h
  · intro net gs cp w1 w2 net2 gs2 hnil h
    rcases addNode_nil_map net gs cp w1 w2 hnil with hc | hc
    · rw [hc, Option.some.injEq, Prod.mk.injEq] at h
      exact ⟨h.1.symm, h.2.symm⟩
    · rw [hc] at h
      cases h

/-- Witness for C2: the no-op conclusions evaluated at concrete rejected
mutations (a self-loop pick for addConnection; a disabled connection for
addNode). -/
theorem c2_structural_mutation_panics_witness :
    (NewNetwork 1 1 = NewNetwork 1 1 ∧ initialGlobalState = initialGlobalState) ∧
    (c2DisabledNet = c2DisabledNet ∧ initialGlobalState = initialGlobalState) :=
  ⟨c2_structural_mutation_panics.1 (NewNetwork 1 1) initialGlobalState 0 0 0
      (NewNetwork 1 1) initialGlobalState rfl (by decide),
    c2_structural_mutation_panics.2.1 c2DisabledNet initialGlobalState 0 0 0
      c2DisabledNet initialGlobalState rfl (by decide)⟩

/-- The innovation counter after k allocations is k mod 2^64. -/
theorem gsAfter_tracker (k : Nat) : (gsAfter k).innovationNoTracker = k % U64 := by
  induction k with
  | zero => rfl
  | succ k ih =>
    show ((gsAfter k).innovationNoTracker + 1) % U64 = (k + 1) % U64
    rw [ih]
    simp only [U64]
    omega

/-- The (k+1)-th allocated innovation number is k mod 2^64. -/
theorem allocValue_eq (k : Nat) : allocValue k = k % U64 := by
  show (((gsAfter k).innovationNoTracker + 1) % U64 + U64 - 1) % U64 = k % U64
  rw [gsAfter_tracker]
  simp only [U64]
  omega

/-- getNewInnovationNumber returns the current tracker value (mod 2^64). -/
theorem getNewInnovationNumber_fst (gs : GlobalState) :
    (getNewInnovationNumber gs).1 = gs.innovationNoTracker % U64 := by
  show ((gs.innovationNoTracker + 1) % U64 + U64 - 1) % U64 = gs.innovationNoTracker % U64
  simp only [U64]
  omega

/-- C8: the allocator half of the claim holds as far as it is exercised —
the first 2^64 innovation numbers a run allocates are strictly increasing —
but the registry half is unreachable.  The mutation-history map is never
initialised with make, so the recording write of the first fresh structural
mutation panics in Go (neat.go:137, neat.go:180-181): no record is ever
created, so no later genome can receive a recorded connection, and in fact
any addConnection that completes under the program's (forever nil) map
leaves both the connection list and the nil map unchanged.  The concrete
evaluations show the panic at the program's initial package state. -/
theorem c8_registry_write_panics :
    (∀ j k : Nat, j < k → k < U64 → allocValue j < allocValue k) ∧
    (∀ (net : Network) (gs : GlobalState) (s r : Nat) (w : ℚ)
        (net2 : Network) (gs2 : GlobalState),
      gs.mutationHistory = none →
      addConnection net gs s r w = some (net2, gs2) →
      net2.connections = net.connections ∧ gs2.mutationHistory = none) ∧
    addConnection (NewNetwork 2 1) initialGlobalState 0 2 0 = none ∧
    addNode c8Net initialGlobalState 0 0 0 = none := by
  refine ⟨?_, ?_, by decide, by decide⟩
  · intro j k hjk hk
    rw [allocValue_eq, allocValue_eq]
    have hj : j % U64 = j := Nat.mod_eq_of_lt (by omega)
    have hk2 : k % U64 = k := Nat.mod_eq_of_lt hk
    omega
  · intro net gs s r w net2 gs2 hnil h
    rcases addConnection_nil_map net gs s r w hnil with hc | hc
    · rw [hc, Option.some.injEq, Prod.mk.injEq] at h
      refine ⟨?_, ?_⟩
      · rw [← h.1]
      · rw [← h.2]
        exact hnil
    · rw [hc] at h
      cases h

/-- Witness for C8: allocation 0 strictly precedes allocation 1, and the
frame conclusion evaluated at a concrete rejected (self-loop)
addConnection. -/
theorem c8_registry_write_panics_witness :
    allocValue 0 < allocValue 1 ∧
    ((NewNetwork 2 1).connections = (NewNetwork 2 1).connections ∧
      initialGlobalState.mutationHistory = none) :=
  ⟨c8_registry_write_panics.1 0 1 (by decide) (by decide),
    c8_registry_write_panics.2.1 (NewNetwork 2 1) initialGlobalState 0 0 0
      (NewNetwork 2 1) initialGlobalState rfl (by decide)⟩

/-! ## Theorems: crossover (claims C6 and C7) and distance/fitness (claim C10) -/

/-- C6: evaluating Crossover at a dominant parent that carries one hidden
node shows the defect: the child's node list stays at the two fresh
input/output nodes (the Go copy builtin never grows its destination), so it
is not a copy of the dominant parent's three-node list, while the child
still inherits a connection whose receiver is the dropped hidden node (its
id is out of range for the child's node list). -/
theorem c6_crossover_truncates_nodes :
    c6Parent.nodes.length = 3 ∧
    c6Child.nodes.length = 2 ∧
    c6Child.nodes ≠ c6Parent.nodes ∧
    ∃ c ∈ c6Child.connections, c6Child.nodes.length ≤ c.endpoints.receiverId := by decide

/-- C7 (amended): Crossover leaves each parent's fitness score, survival
chance, node list, input/output counts and similarity counter unchanged and
only permutes its connection list (the in-place sort by innovation number);
a parent whose sorted flag is already set is returned entirely unchanged.
Full purity as claimed fails: the sort reorders an unsorted parent's
connection list and flips its sorted flag (see the counterexample). -/
theorem c7_crossover_frame (net other : Network) (coins : Nat → Bool) :
    ((Crossover net other coins).2.1.FitnessScore = net.FitnessScore ∧
      (Crossover net other coins).2.1.SurvivalChance = net.SurvivalChance ∧
      (Crossover net other coins).2.1.nodes = net.nodes ∧
      (Crossover net other coins).2.1.nInputs = net.nInputs ∧
      (Crossover net other coins).2.1.nOutputs = net.nOutputs ∧
      (Crossover net other coins).2.1.nSimilar = net.nSimilar ∧
      ((Crossover net other coins).2.1.connections).Perm net.connections) ∧
    ((Crossover net other coins).2.2.FitnessScore = other.FitnessScore ∧
      (Crossover net other coins).2.2.SurvivalChance = other.SurvivalChance ∧
      (Crossover net other coins).2.2.nodes = other.nodes ∧
      (Crossover net other coins).2.2.nInputs = other.nInputs ∧
      (Crossover net other coins).2.2.nOutputs = other.nOutputs ∧
      (Crossover net other coins).2.2.nSimilar = other.nSimilar ∧
      ((Crossover net other coins).2.2.connections).Perm other.connections) ∧
    (net.sorted = true → (Crossover net other coins).2.1 = net) ∧
    (other.sorted = true → (Crossover net other coins).2.2 = other) := by
  unfold Crossover
  by_cases h1 : net.sorted <;> by_cases h2 : other.sorted <;>
    simp [h1, h2, sortConns, List.perm_insertionSort, List.Perm.refl]

/-- Witness for the amended C7 at two concrete fresh networks. -/
theorem c7_crossover_frame_witness :
    ((Crossover (NewNetwork 1 1) (NewNetwork 2 1) (fun _ => true)).2.1.FitnessScore =
        (NewNetwork 1 1).FitnessScore ∧
      (Crossover (NewNetwork 1 1) (NewNetwork 2 1) (fun _ => true)).2.1.SurvivalChance =
        (NewNetwork 1 1).SurvivalChance ∧
      (Crossover (NewNetwork 1 1) (NewNetwork 2 1) (fun _ => true)).2.1.nodes =
        (NewNetwork 1 1).nodes ∧
      (Crossover (NewNetwork 1 1) (NewNetwork 2 1) (fun _ => true)).2.1.nInputs =
        (NewNetwork 1 1).nInputs ∧
      (Crossover (NewNetwork 1 1) (NewNetwork 2 1) (fun _ => true)).2.1.nOutputs =
        (NewNetwork 1 1).nOutputs ∧
      (Crossover (NewNetwork 1 1) (NewNetwork 2 1) (fun _ => true)).2.1.nSimilar =
        (NewNetwork 1 1).nSimilar ∧
      ((Crossover (NewNetwork 1 1) (NewNetwork 2 1) (fun _ => true)).2.1.connections).Perm
        (NewNetwork 1 1).connections) ∧
    ((Crossover (NewNetwork 1 1) (NewNetwork 2 1) (fun _ => true)).2.2.FitnessScore =
        (NewNetwork 2 1).FitnessScore ∧
      (Crossover (NewNetwork 1 1) (NewNetwork 2 1) (fun _ => true)).2.2.SurvivalChance =
        (NewNetwork 2 1).SurvivalChance ∧
      (Crossover (NewNetwork 1 1) (NewNetwork 2 1) (fun _ => true)).2.2.nodes =
        (NewNetwork 2 1).nodes ∧
      (Crossover (NewNetwork 1 1) (NewNetwork 2 1) (fun _ => true)).2.2.nInputs =
        (NewNetwork 2 1).nInputs ∧
      (Crossover (NewNetwork 1 1) (NewNetwork 2 1) (fun _ => true)).2.2.nOutputs =
        (NewNetwork 2 1).nOutputs ∧
      (Crossover (NewNetwork 1 1) (NewNetwork 2 1) (fun _ => true)).2.2.nSimilar =
        (NewNetwork 2 1).nSimilar ∧
      ((Crossover (NewNetwork 1 1) (NewNetwork 2 1) (fun _ => true)).2.2.connections).Perm
        (NewNetwork 2 1).connections) ∧
    ((NewNetwork 1 1).sorted = true →
      (Crossover (NewNetwork 1 1) (NewNetwork 2 1) (fun _ => true)).2.1 = NewNetwork 1 1) ∧
    ((NewNetwork 2 1).sorted = true →
      (Crossover (NewNetwork 1 1) (NewNetwork 2 1) (fun _ => true)).2.2 = NewNetwork 2 1) :=
  c7_crossover_frame (NewNetwork 1 1) (NewNetwork 2 1) (fun _ => true)

/-- Counterexample to C7 as stated: a parent whose two connections are out
of innovation order (a type-valid input of the universally quantified
claim) is mutated by Crossover: its connection order changes and its
sorted flag flips, so the parent's observable state differs after the
call. -/
theorem c7_counterexample :
    c7Parent.sorted = false ∧
    c7Parent.connections.map connection.innovationNo = [1, 0] ∧
    (Crossover c7Parent (NewNetwork 2 1) (fun _ => true)).2.1.sorted = true ∧
    (Crossover c7Parent (NewNetwork 2 1) (fun _ => true)).2.1.connections.map
      connection.innovationNo = [0, 1] ∧
    (Crossover c7Parent (NewNetwork 2 1) (fun _ => true)).2.1 ≠ c7Parent := by decide

/-- C10: for any two networks with no connections (in particular a freshly
constructed network against itself), Distance returns exactly 1 (N is
floored to 1 and the single compared position counts as excess), which is
not below the 0.3 similarity threshold, so the receiver's nSimilar counter
is not incremented; a fresh network has nSimilar = 0 and no connections, so
ComputeAndSetFitnessScore on it divides by zero (modelled as returning
none) for the repository's test set, which is empty. -/
theorem c10_distance_divzero :
    ∀ (net other : Network), net.connections = [] → other.connections = [] →
      (Distance net other).1 = 1 ∧
      ¬ ((Distance net other).1 < 3 / 10) ∧
      (Distance net other).2.1.nSimilar = net.nSimilar ∧
      (∀ nIn nOut : Nat, (NewNetwork nIn nOut).connections = [] ∧
        (NewNetwork nIn nOut).nSimilar = 0) ∧
      (∀ (sem : ActivationSemantics) (nIn nOut : Nat) (gs : GlobalState),
        ComputeAndSetFitnessScore sem [] (NewNetwork nIn nOut) gs = none) := by
  intro net other h1 h2
  have hd : (Distance net other).1 = 1 := by
    by_cases hs1 : net.sorted <;> by_cases hs2 : other.sorted <;>
      simp [Distance, h1, h2, hs1, hs2, sortConns, List.insertionSort, List.range_succ, List.range_zero,
        List.foldl_append, List.foldl_cons, List.foldl_nil] <;>
      norm_num
  have hns : (Distance net other).2.1.nSimilar = net.nSimilar := by
    by_cases hs1 : net.sorted <;> by_cases hs2 : other.sorted <;>
      simp [Distance, h1, h2, hs1, hs2, sortConns, List.insertionSort, List.range_succ, List.range_zero,
        List.foldl_append, List.foldl_cons, List.foldl_nil] <;>
      norm_num
  refine ⟨hd, ?_, hns, fun nIn nOut => ⟨rfl, rfl⟩, ?_⟩
  · rw [hd]
    norm_num
  · intro sem nIn nOut gs
    simp [ComputeAndSetFitnessScore, NewNetwork]

/-- Witness for C10 at a freshly constructed 1-input 1-output network
compared against itself. -/
theorem c10_distance_divzero_witness :
    (Distance (NewNetwork 1 1) (NewNetwork 1 1)).1 = 1 ∧
    ¬ ((Distance (NewNetwork 1 1) (NewNetwork 1 1)).1 < 3 / 10) ∧
    (Distance (NewNetwork 1 1) (NewNetwork 1 1)).2.1.nSimilar = (NewNetwork 1 1).nSimilar ∧
    (∀ nIn nOut : Nat, (NewNetwork nIn nOut).connections = [] ∧
      (NewNetwork nIn nOut).nSimilar = 0) ∧
    (∀ (sem : ActivationSemantics) (nIn nOut : Nat) (gs : GlobalState),
      ComputeAndSetFitnessScore sem [] (NewNetwork nIn nOut) gs = none) :=
  c10_distance_divzero (NewNetwork 1 1) (NewNetwork 1 1) rfl rfl
